import Mathlib

/-!
# Verification of the InstallmentGuard fraud-detection core

A shallow embedding of the fraud-detection data model and operations of the
installment fraud-detection repository, together with proofs of the spec's
claims about them.

The repository ships the database schema (`backend/init.sql`, with the
`alert_status`, `alert_severity` and `alert_type` enums and the
`fraud_alerts` / `fraud_patterns` tables), the mobile API client
(`apiService.ts`, with `handleApiError` and the 401 refresh interceptor) and
design documents, but the fraud-detection engine itself (detectors, risk
calculator, alert manager, orchestrator) is not present as code.  Definitions
for those components are therefore modelled from the specification, as marked
in their doc comments; definitions for the schema enums and the API client
are translated from the source files.
-/

namespace InstallmentGuard

/-- From `init.sql`: `CREATE TYPE alert_type AS ENUM ('rapid_requests',
'high_debt_ratio', 'cross_business_chain', 'payment_default_pattern')`. -/
inductive AlertType where
  | rapidRequests
  | highDebtRatio
  | crossBusinessChain
  | paymentDefaultPattern
deriving DecidableEq, Repr

/-- From `init.sql`: `CREATE TYPE alert_severity AS ENUM ('low', 'medium',
'high', 'critical')`. -/
inductive AlertSeverity where
  | low
  | medium
  | high
  | critical
deriving DecidableEq, Repr

/-- From `init.sql`: `CREATE TYPE alert_status AS ENUM ('active',
'investigating', 'resolved', 'false_positive')`. -/
inductive AlertStatus where
  | active
  | investigating
  | resolved
  | falsePositive
deriving DecidableEq, Repr

/-- The pattern types stored in `fraud_patterns.pattern_type`; the same four
values as `alert_type` (design doc `PatternType` enum). -/
inductive PatternType where
  | rapidRequests
  | highDebtRatio
  | crossBusinessChain
  | paymentDefaultPattern
deriving DecidableEq, Repr

/-- A fraud alert row, from the `fraud_alerts` table of `init.sql` and the
spec's FraudAlert record; `evidenceTimestamp` models the evidence metadata
the dedup rule updates on re-trigger.  Timestamps are days as naturals. -/
structure FraudAlert where
  id : Nat
  customerId : Nat
  alertType : AlertType
  description : String
  severity : AlertSeverity
  status : AlertStatus
  evidenceTimestamp : Nat
  createdAt : Nat
  resolvedAt : Option Nat
deriving DecidableEq, Repr

/-- Resolved and FalsePositive are the terminal alert statuses (spec 4.4). -/
def terminal : AlertStatus → Bool
  | .resolved => true
  | .falsePositive => true
  | _ => false

/-- Modelled from the spec: the alert-manager configuration — the
`RISK_SCORE_ALERT_THRESHOLD` and the severity band boundaries of 4.4,
configuration rather than hardcoded constants. -/
structure AlertConfig where
  alertThreshold : ℚ
  lowUpper : ℚ
  mediumUpper : ℚ
  highUpper : ℚ

/-- Modelled from the spec (4.4): severity from risk-score bands. -/
def severityOf (cfg : AlertConfig) (score : ℚ) : AlertSeverity :=
  if score < cfg.lowUpper then .low
  else if score < cfg.mediumUpper then .medium
  else if score < cfg.highUpper then .high
  else .critical

/-- There is an Active or Investigating alert of the given type for the given
customer (the dedup test of spec 4.4). -/
def hasOpenAlert (store : List FraudAlert) (cid : Nat) (ty : AlertType) : Prop :=
  ∃ a ∈ store, a.customerId = cid ∧ a.alertType = ty ∧
    (a.status = AlertStatus.active ∨ a.status = AlertStatus.investigating)

instance (store : List FraudAlert) (cid : Nat) (ty : AlertType) :
    Decidable (hasOpenAlert store cid ty) := by
  unfold hasOpenAlert; infer_instance

/-- Modelled from the spec (4.4, Alert Manager, absent from the repository's
code): a trigger creates an Active alert when the risk score crosses the
threshold and no Active/Investigating alert of the same type exists;
re-triggering an existing Active alert updates its evidence timestamp and
creates no new row. -/
def triggerAlert (cfg : AlertConfig) (store : List FraudAlert) (cid : Nat)
    (ty : AlertType) (score : ℚ) (now nextId : Nat) : List FraudAlert :=
  if score < cfg.alertThreshold then store
  else if hasOpenAlert store cid ty then
    store.map fun a =>
      if a.customerId = cid ∧ a.alertType = ty ∧ a.status = AlertStatus.active then
        { a with evidenceTimestamp := now }
      else a
  else
    { id := nextId, customerId := cid, alertType := ty,
      description := "fraud risk threshold crossed",
      severity := severityOf cfg score, status := AlertStatus.active,
      evidenceTimestamp := now, createdAt := now, resolvedAt := none } :: store

/-- The investigator actions of spec 4.4: move an alert to Investigating,
Resolved or FalsePositive. -/
inductive Verdict where
  | investigate
  | resolve
  | markFalsePositive
deriving DecidableEq, Repr

/-- Modelled from the spec (4.4): an external investigator action sets the
status of one alert; terminal alerts are never moved (Resolved and
FalsePositive are terminal). -/
def investigatorSet (store : List FraudAlert) (alertId : Nat) (v : Verdict)
    (now : Nat) : List FraudAlert :=
  store.map fun a =>
    if a.id = alertId ∧ terminal a.status = false then
      match v with
      | .investigate => { a with status := .investigating }
      | .resolve => { a with status := .resolved, resolvedAt := some now }
      | .markFalsePositive => { a with status := .falsePositive, resolvedAt := some now }
    else a

/-- The operations that touch alert state: automatic/manual triggers and
investigator actions. -/
inductive AlertOp where
  | trigger (cid : Nat) (ty : AlertType) (score : ℚ) (now nextId : Nat)
  | investigator (alertId : Nat) (v : Verdict) (now : Nat)

/-- One step of the alert-manager state machine. -/
def applyAlertOp (cfg : AlertConfig) (store : List FraudAlert) : AlertOp → List FraudAlert
  | .trigger cid ty score now nextId => triggerAlert cfg store cid ty score now nextId
  | .investigator alertId v now => investigatorSet store alertId v now

/-- The number of Active alerts of one type for one customer. -/
def countActive (store : List FraudAlert) (cid : Nat) (ty : AlertType) : Nat :=
  store.countP fun a =>
    decide (a.customerId = cid ∧ a.alertType = ty ∧ a.status = AlertStatus.active)

/-- The kinds of normalized timeline entries (spec 3, HistoryEvent). -/
inductive EventKind where
  | requested
  | approved
  | rejected
  | paymentDue
  | paymentPaid
  | paymentOverdue
deriving DecidableEq, Repr

/-- Modelled from the spec (3): a normalized cross-business timeline entry
produced by the History Aggregator.  Timestamps are days as naturals,
amounts are rationals. -/
structure HistoryEvent where
  businessId : Nat
  kind : EventKind
  amount : ℚ
  timestamp : Nat
deriving DecidableEq, Repr

/-- Modelled from the spec (6): the configuration store the detectors
consume.  `debtCeiling` is the opaque collaborator value
`getDebtCeiling(customerId)` threaded in alongside the thresholds. -/
structure DetectorConfig where
  rapidRequestWindowDays : Nat
  rapidRequestCount : Nat
  debtRatioThreshold : ℚ
  debtCeiling : ℚ
  chainHopWindowDays : Nat
  chainMinHops : Nat
  chainUnpaidRatio : ℚ
  defaultRatioThreshold : ℚ
  minPaymentSample : Nat
deriving DecidableEq, Repr

/-- The tagged-variant evidence of a fraud pattern, one shape per pattern
type (spec 3 and 9, replacing the schema's opaque JSONB). -/
inductive Evidence where
  | rapidRequests (requests : List (Nat × Nat))
  | highDebtRatio (perBusiness : List (Nat × ℚ))
  | crossBusinessChain (links : List (Nat × Nat × ℚ))
  | paymentDefault (overdueCount dueCount : Nat)
deriving DecidableEq, Repr

/-- An unpersisted pattern candidate emitted by a detector (spec 4.2). -/
structure FraudFinding where
  patternType : PatternType
  evidence : Evidence
deriving DecidableEq, Repr

/-- The `Requested` events inside the sliding window of
`RAPID_REQUEST_WINDOW_DAYS` ending at `asOf` (spec 4.2, RapidRequests). -/
def requestedInWindow (cfg : DetectorConfig) (asOf : Nat)
    (timeline : List HistoryEvent) : List HistoryEvent :=
  timeline.filter fun e =>
    decide (e.kind = EventKind.requested ∧
      asOf - cfg.rapidRequestWindowDays ≤ e.timestamp ∧ e.timestamp ≤ asOf)

/-- Modelled from the spec (4.2, RapidRequests detector, absent from the
repository's code): emit one finding when the windowed request count is
strictly greater than `RAPID_REQUEST_COUNT`; evidence is the list of
request timestamps and business ids in the window. -/
def detectRapidRequests (cfg : DetectorConfig) (asOf : Nat)
    (timeline : List HistoryEvent) : List FraudFinding :=
  if cfg.rapidRequestCount < (requestedInWindow cfg asOf timeline).length then
    [⟨PatternType.rapidRequests,
      Evidence.rapidRequests
        ((requestedInWindow cfg asOf timeline).map fun e => (e.timestamp, e.businessId))⟩]
  else []

/-- Count of `PaymentDue` events across the history. -/
def paymentDueCount (timeline : List HistoryEvent) : Nat :=
  timeline.countP fun e => decide (e.kind = EventKind.paymentDue)

/-- Count of `PaymentOverdue` events across the history. -/
def paymentOverdueCount (timeline : List HistoryEvent) : Nat :=
  timeline.countP fun e => decide (e.kind = EventKind.paymentOverdue)

/-- Modelled from the spec (4.2, PaymentDefaultPattern detector, absent from
the repository's code): emit a finding when the overdue/total ratio is
strictly greater than `DEFAULT_RATIO_THRESHOLD` and the total `PaymentDue`
count meets the minimum sample size `MIN_PAYMENT_SAMPLE`. -/
def detectPaymentDefault (cfg : DetectorConfig)
    (timeline : List HistoryEvent) : List FraudFinding :=
  if cfg.minPaymentSample ≤ paymentDueCount timeline ∧
      cfg.defaultRatioThreshold <
        (paymentOverdueCount timeline : ℚ) / (paymentDueCount timeline : ℚ) then
    [⟨PatternType.paymentDefaultPattern,
      Evidence.paymentDefault (paymentOverdueCount timeline) (paymentDueCount timeline)⟩]
  else []

/-- Sum of approved amounts at one business. -/
def approvedSum (timeline : List HistoryEvent) (b : Nat) : ℚ :=
  ((timeline.filter fun e =>
    decide (e.kind = EventKind.approved ∧ e.businessId = b)).map (·.amount)).sum

/-- Sum of paid amounts at one business. -/
def paidSum (timeline : List HistoryEvent) (b : Nat) : ℚ :=
  ((timeline.filter fun e =>
    decide (e.kind = EventKind.paymentPaid ∧ e.businessId = b)).map (·.amount)).sum

/-- Remaining (not yet paid) approved amount at one business, floored at 0. -/
def remainingFor (timeline : List HistoryEvent) (b : Nat) : ℚ :=
  max 0 (approvedSum timeline b - paidSum timeline b)

/-- The distinct businesses appearing in the timeline. -/
def businessesOf (timeline : List HistoryEvent) : List Nat :=
  (timeline.map (·.businessId)).dedup

/-- Total outstanding debt across all businesses (spec 4.2, HighDebtRatio:
`remainingAmount` of plans derived from Approved events not yet paid). -/
def totalOutstanding (timeline : List HistoryEvent) : ℚ :=
  ((businessesOf timeline).map (remainingFor timeline)).sum

/-- Modelled from the spec (4.2, HighDebtRatio detector, absent from the
repository's code): emit a finding when outstanding/ceiling is strictly
greater than `DEBT_RATIO_THRESHOLD` (stated multiplicatively as
`threshold * ceiling < outstanding`); evidence is the per-business
breakdown of remaining amounts. -/
def detectHighDebtRatio (cfg : DetectorConfig)
    (timeline : List HistoryEvent) : List FraudFinding :=
  if cfg.debtRatioThreshold * cfg.debtCeiling < totalOutstanding timeline then
    [⟨PatternType.highDebtRatio,
      Evidence.highDebtRatio
        ((businessesOf timeline).map fun b => (b, remainingFor timeline b))⟩]
  else []

/-- Amount paid to business `b` in the half-open interval `(t1, t2]`. -/
def paidBetween (timeline : List HistoryEvent) (b t1 t2 : Nat) : ℚ :=
  ((timeline.filter fun e =>
    decide (e.kind = EventKind.paymentPaid ∧ e.businessId = b ∧
      t1 < e.timestamp ∧ e.timestamp ≤ t2)).map (·.amount)).sum

/-- A valid chain hop between two consecutive approvals (spec 4.2,
CrossBusinessChain): distinct businesses, a gap of at most
`CHAIN_HOP_WINDOW_DAYS`, and the prior plan still largely unpaid
(`paidAmount < CHAIN_UNPAID_RATIO * totalAmount`). -/
def hopOk (cfg : DetectorConfig) (timeline : List HistoryEvent)
    (e1 e2 : HistoryEvent) : Prop :=
  e1.businessId ≠ e2.businessId ∧
  e2.timestamp - e1.timestamp ≤ cfg.chainHopWindowDays ∧
  paidBetween timeline e1.businessId e1.timestamp e2.timestamp <
    cfg.chainUnpaidRatio * e1.amount

instance (cfg : DetectorConfig) (timeline : List HistoryEvent)
    (e1 e2 : HistoryEvent) : Decidable (hopOk cfg timeline e1 e2) := by
  unfold hopOk; infer_instance

/-- Split the approvals into maximal runs of consecutive valid hops
(overlapping chains are merged into one maximal chain, spec 4.2). -/
def chainRuns (cfg : DetectorConfig) (timeline : List HistoryEvent) :
    List HistoryEvent → List (List HistoryEvent)
  | [] => []
  | [e] => [[e]]
  | e1 :: e2 :: rest =>
    match chainRuns cfg timeline (e2 :: rest) with
    | [] => [[e1]]
    | run :: runs =>
      if hopOk cfg timeline e1 e2 then (e1 :: run) :: runs
      else [e1] :: run :: runs

/-- Unpaid ratio of an approval as of the analysis time. -/
def unpaidRatioAsOf (timeline : List HistoryEvent) (asOf : Nat)
    (e : HistoryEvent) : ℚ :=
  1 - paidBetween timeline e.businessId e.timestamp asOf / e.amount

/-- Modelled from the spec (4.2, CrossBusinessChain detector, absent from
the repository's code): a maximal run of `k ≥ CHAIN_MIN_HOPS` valid hops
(hence `k + 1` approvals) yields one finding, with the ordered list of
(businessId, approvalTimestamp, unpaidRatio) tuples as evidence. -/
def detectCrossBusinessChain (cfg : DetectorConfig) (asOf : Nat)
    (timeline : List HistoryEvent) : List FraudFinding :=
  let approvals := timeline.filter fun e => decide (e.kind = EventKind.approved)
  ((chainRuns cfg timeline approvals).filter fun run =>
      decide (cfg.chainMinHops + 1 ≤ run.length)).map fun run =>
    ⟨PatternType.crossBusinessChain,
      Evidence.crossBusinessChain
        (run.map fun e => (e.businessId, e.timestamp, unpaidRatioAsOf timeline asOf e))⟩

/-- The error taxonomy of spec 7 that a single detector can raise:
a missing/out-of-domain threshold, or any other exception. -/
inductive DetectorError where
  | invalidConfiguration (message : String)
  | detectorFailure (message : String)
deriving DecidableEq, Repr

/-- A detector run by the orchestrator: a pure function of configuration,
analysis time and timeline that either returns findings or raises. -/
abbrev Detector :=
  DetectorConfig → Nat → List HistoryEvent → Except DetectorError (List FraudFinding)

/-- Modelled from the spec (4.2/7): the RapidRequests detector with its
configuration domain check (a zero window is out of domain). -/
def rapidRequestsDetector : Detector := fun cfg asOf tl =>
  if 0 < cfg.rapidRequestWindowDays then Except.ok (detectRapidRequests cfg asOf tl)
  else Except.error (DetectorError.invalidConfiguration "RAPID_REQUEST_WINDOW_DAYS out of domain")

/-- Modelled from the spec (4.2/7): the HighDebtRatio detector with its
configuration domain check. -/
def highDebtRatioDetector : Detector := fun cfg _ tl =>
  if 0 ≤ cfg.debtRatioThreshold ∧ 0 < cfg.debtCeiling then
    Except.ok (detectHighDebtRatio cfg tl)
  else Except.error (DetectorError.invalidConfiguration "DEBT_RATIO_THRESHOLD out of domain")

/-- Modelled from the spec (4.2/7): the CrossBusinessChain detector with its
configuration domain check. -/
def crossBusinessChainDetector : Detector := fun cfg asOf tl =>
  if 0 < cfg.chainHopWindowDays ∧ 0 ≤ cfg.chainUnpaidRatio ∧ cfg.chainUnpaidRatio ≤ 1 then
    Except.ok (detectCrossBusinessChain cfg asOf tl)
  else Except.error (DetectorError.invalidConfiguration "CHAIN configuration out of domain")

/-- Modelled from the spec (4.2/7): the PaymentDefaultPattern detector with
its configuration domain check. -/
def paymentDefaultDetector : Detector := fun cfg _ tl =>
  if 0 ≤ cfg.defaultRatioThreshold ∧ cfg.defaultRatioThreshold ≤ 1 then
    Except.ok (detectPaymentDefault cfg tl)
  else Except.error (DetectorError.invalidConfiguration "DEFAULT_RATIO_THRESHOLD out of domain")

/-- Modelled from the spec (7): the orchestrator boundary catches a failing
detector and treats it as returning no findings (fail-open per detector). -/
def runDetector (d : Detector) (cfg : DetectorConfig) (asOf : Nat)
    (tl : List HistoryEvent) : List FraudFinding :=
  match d cfg asOf tl with
  | Except.ok fs => fs
  | Except.error _ => []

/-- Run a list of detectors, concatenating the findings of the ones that
succeed and skipping the ones that raise. -/
def runDetectors (ds : List Detector) (cfg : DetectorConfig) (asOf : Nat)
    (tl : List HistoryEvent) : List FraudFinding :=
  ds.foldr (fun d acc => runDetector d cfg asOf tl ++ acc) []

/-- The four pluggable rule modules of spec 4.2. -/
def allDetectors : List Detector :=
  [rapidRequestsDetector, highDebtRatioDetector,
   crossBusinessChainDetector, paymentDefaultDetector]

/-- Modelled from the spec (4.5): `detectPatterns` runs the detectors only,
without scoring or alerting. -/
def detectPatterns (cfg : DetectorConfig) (asOf : Nat)
    (tl : List HistoryEvent) : List FraudFinding :=
  runDetectors allDetectors cfg asOf tl

/-- A fraud pattern row, from the `fraud_patterns` table of `init.sql` with
the spec's tagged-variant evidence in place of JSONB. -/
structure FraudPattern where
  id : Nat
  customerId : Nat
  patternType : PatternType
  evidence : Evidence
  riskContribution : ℚ
  detectedAt : Nat
deriving DecidableEq, Repr

/-- Modelled from the spec (4.3): the risk-calculator configuration — a
fixed configurable base weight per pattern type (a risk contribution, hence
in `[0,1]` as spec 3 requires) and `PATTERN_DECAY_DAYS`. -/
structure RiskConfig where
  baseWeight : PatternType → ℚ
  baseWeight_nonneg : ∀ t, 0 ≤ baseWeight t
  baseWeight_le_one : ∀ t, baseWeight t ≤ 1
  patternDecayDays : Nat

/-- The currently-active patterns: those not older than
`PATTERN_DECAY_DAYS` at evaluation time (spec 4.3, time decay). -/
def activePatterns (rc : RiskConfig) (asOf : Nat)
    (ps : List FraudPattern) : List FraudPattern :=
  ps.filter fun p => decide (asOf - p.detectedAt ≤ rc.patternDecayDays)

/-- Modelled from the spec (4.3, Risk Calculator, absent from the
repository's code): the noisy-OR combination `1 - Π(1 - weight_i)` over the
currently-active patterns, with the configured base weight of each
pattern's type. -/
def computeRiskScore (rc : RiskConfig) (asOf : Nat)
    (ps : List FraudPattern) : ℚ :=
  1 - ((activePatterns rc asOf ps).map fun p => 1 - rc.baseWeight p.patternType).prod

/-- The noisy-OR score of a batch of fresh findings (used by the
orchestrator on the detectors' output of the current run). -/
def scoreOfFindings (rc : RiskConfig) (fs : List FraudFinding) : ℚ :=
  1 - (fs.map fun f => 1 - rc.baseWeight f.patternType).prod

/-- What `analyzeCustomer` returns (spec 4.5). -/
structure AnalysisResult where
  riskScore : ℚ
  patterns : List FraudFinding
  recommendations : List String
deriving DecidableEq, Repr

/-- Modelled from the spec (4.5/7): the orchestrator pipeline on a built
timeline — run every detector (skipping the ones that raise), combine the
findings into one risk score, and derive the advisory recommendation. -/
def analyzeTimeline (ds : List Detector) (cfg : DetectorConfig)
    (rc : RiskConfig) (alertThreshold : ℚ) (asOf : Nat)
    (tl : List HistoryEvent) : AnalysisResult :=
  let fs := runDetectors ds cfg asOf tl
  { riskScore := scoreOfFindings rc fs
    patterns := fs
    recommendations :=
      if alertThreshold ≤ scoreOfFindings rc fs then
        ["defer approval pending manual review"]
      else [] }

/-- A persisted fraud-pattern row as the idempotent upsert sees it
(`fraud_patterns` keyed by `(customer_id, pattern_type)`, spec 5). -/
structure PatternRow where
  customerId : Nat
  patternType : PatternType
  evidence : Evidence
  detectedAt : Nat
deriving DecidableEq, Repr

/-- A pattern row without its `detectedAt` column (re-detection may update
`detectedAt` only, spec 3/8). -/
structure PatternCore where
  customerId : Nat
  patternType : PatternType
  evidence : Evidence
deriving DecidableEq, Repr

/-- Drop the `detectedAt` column. -/
def stripDetectedAt (r : PatternRow) : PatternCore :=
  ⟨r.customerId, r.patternType, r.evidence⟩

/-- Some row for this customer and pattern type is already stored. -/
def hasPatternRow (store : List PatternRow) (cid : Nat) (ty : PatternType) : Prop :=
  ∃ r ∈ store, r.customerId = cid ∧ r.patternType = ty

instance (store : List PatternRow) (cid : Nat) (ty : PatternType) :
    Decidable (hasPatternRow store cid ty) := by
  unfold hasPatternRow; infer_instance

/-- Modelled from the spec (5/8): the idempotent upsert keyed by
`(customerId, patternType)` — an existing row is superseded in place
(evidence and `detectedAt` updated), otherwise a new row is appended;
rows are never deleted. -/
def upsertPattern (store : List PatternRow) (cid : Nat) (f : FraudFinding)
    (now : Nat) : List PatternRow :=
  if hasPatternRow store cid f.patternType then
    store.map fun r =>
      if r.customerId = cid ∧ r.patternType = f.patternType then
        { r with evidence := f.evidence, detectedAt := now }
      else r
  else store ++ [⟨cid, f.patternType, f.evidence, now⟩]

/-- Persist a detection run's findings for one customer (spec 2: results
are persisted as FraudPattern rows). -/
def persistPatterns (store : List PatternRow) (cid : Nat)
    (fs : List FraudFinding) (now : Nat) : List PatternRow :=
  fs.foldl (fun s f => upsertPattern s cid f now) store

/-- `hasPatternRow` on cores. -/
def hasCoreRow (m : List PatternCore) (cid : Nat) (ty : PatternType) : Prop :=
  ∃ r ∈ m, r.customerId = cid ∧ r.patternType = ty

instance (m : List PatternCore) (cid : Nat) (ty : PatternType) :
    Decidable (hasCoreRow m cid ty) := by
  unfold hasCoreRow; infer_instance

/-- The upsert on rows stripped of `detectedAt`. -/
def coreUpsert (m : List PatternCore) (cid : Nat) (f : FraudFinding) : List PatternCore :=
  if hasCoreRow m cid f.patternType then
    m.map fun r =>
      if r.customerId = cid ∧ r.patternType = f.patternType then
        { r with evidence := f.evidence }
      else r
  else m ++ [⟨cid, f.patternType, f.evidence⟩]

/-- The persistence fold on stripped rows. -/
def corePersist (m : List PatternCore) (cid : Nat) (fs : List FraudFinding) : List PatternCore :=
  fs.foldl (fun s f => coreUpsert s cid f) m

/-- The last evidence a findings list writes for a pattern type (later
findings supersede earlier ones of the same type). -/
def lastEvidence : List FraudFinding → PatternType → Option Evidence
  | [], _ => none
  | f :: rest, t =>
    match lastEvidence rest t with
    | some e => some e
    | none => if f.patternType = t then some f.evidence else none

/-- Apply a batch of evidence writes to every matching stored row of one
customer. -/
def applyWrites (cid : Nat) (g : PatternType → Option Evidence)
    (m : List PatternCore) : List PatternCore :=
  m.map fun r =>
    if r.customerId = cid then
      match g r.patternType with
      | some e => { r with evidence := e }
      | none => r
    else r

/-- Modelled from the spec (6): the stored state behind the read/query
interface — fraud alerts, fraud patterns, and the remaining records of the
system (requests, plans, payments), kept opaque. -/
structure ServerState where
  alerts : List FraudAlert
  patterns : List PatternRow
  otherRecords : List Nat
deriving DecidableEq, Repr

/-- Alert filters of `getFraudAlerts(filters, pagination)`. -/
structure AlertFilter where
  customerId : Option Nat
  status : Option AlertStatus
deriving DecidableEq, Repr

/-- Page/size pagination as the mobile client sends it
(`apiService.getFraudAlerts(page = 1, size = 10)`). -/
structure Pagination where
  page : Nat
  size : Nat
deriving DecidableEq, Repr

/-- An alert passes the filters. -/
def alertMatches (flt : AlertFilter) (a : FraudAlert) : Bool :=
  (match flt.customerId with
   | some cid => decide (a.customerId = cid)
   | none => true) &&
  (match flt.status with
   | some st => decide (a.status = st)
   | none => true)

/-- Modelled from the spec (6, absent from the repository's backend code —
the mobile client `apiService.getFraudAlerts` only issues the GET):
`getFraudAlerts(filters, pagination) -> page of FraudAlert`, a read query
returning one page of the filtered alerts and the stored state it leaves
behind. -/
def getFraudAlerts (st : ServerState) (flt : AlertFilter)
    (pg : Pagination) : List FraudAlert × ServerState :=
  ((((st.alerts.filter (alertMatches flt)).drop ((pg.page - 1) * pg.size)).take pg.size), st)

/-- The `error.response.data.error` object of an axios error
(`apiService.ts`): its optional `message` field. -/
structure ApiErrorInfo where
  message : Option String
deriving DecidableEq, Repr

/-- The `error.response.data` object: an optional nested `error` object and
an optional `detail` string. -/
structure ApiResponseData where
  error : Option ApiErrorInfo
  detail : Option String
deriving DecidableEq, Repr

/-- The `error.response` object: its optional `data`. -/
structure ApiResponse where
  data : Option ApiResponseData
deriving DecidableEq, Repr

/-- The error value `handleApiError` receives: an optional `response` and an
optional top-level `message` (the fields the function reads). -/
structure ApiError where
  response : Option ApiResponse
  message : Option String
deriving DecidableEq, Repr

/-- The optional chain `error.response?.data?.error?.message`. -/
def chainMessage (e : ApiError) : Option String :=
  (((e.response.bind (·.data)).bind (·.error)).bind (·.message))

/-- The optional chain `error.response?.data?.detail`. -/
def chainDetail (e : ApiError) : Option String :=
  ((e.response.bind (·.data)).bind (·.detail))

/-- JavaScript truthiness of an optional string field: present and not the
empty string. -/
def jsTruthy : Option String → Bool
  | none => false
  | some s => decide (s ≠ "")

/-- One step of the JS `if (x) return x; else ...` cascade on a string
field. -/
def jsOrElse (a : Option String) (fallback : String) : String :=
  match a with
  | some s => if s = "" then fallback else s
  | none => fallback

/-- From `apiService.ts`, `handleApiError`: return
`error.response?.data?.error?.message`, else `error.response?.data?.detail`,
else `error.message`, else the literal fallback. -/
def handleApiError (e : ApiError) : String :=
  jsOrElse (chainMessage e)
    (jsOrElse (chainDetail e)
      (jsOrElse e.message "An unexpected error occurred"))

/-- The token storage of the mobile app (`AsyncStorage` keys `access_token`
and `refresh_token`). -/
structure TokenStorage where
  accessToken : Option String
  refreshToken : Option String
deriving DecidableEq, Repr

/-- The mutable client state the response interceptor touches: the stored
tokens and the axios default `Authorization` header. -/
structure ClientState where
  storage : TokenStorage
  authHeader : Option String
deriving DecidableEq, Repr

/-- The per-request config fields the interceptor reads and writes:
the `_retry` flag and the request's own `Authorization` header. -/
structure RequestConfig where
  retryFlag : Bool
  authHeader : Option String
deriving DecidableEq, Repr

/-- The outcome of `this.refreshToken(refreshToken)`: a new token pair, or a
failure. -/
inductive RefreshOutcome where
  | success (accessToken refreshToken : String)
  | failure
deriving DecidableEq, Repr

/-- What the interceptor does with the failed request. -/
inductive InterceptAction where
  | retryRequest
  | rejectOriginal
  | rejectRefreshError
deriving DecidableEq, Repr

/-- The result of one interceptor invocation: the client state and request
config it leaves, what it does with the request, and whether it invoked the
refresh endpoint. -/
structure InterceptResult where
  state : ClientState
  config : RequestConfig
  action : InterceptAction
  refreshed : Bool
deriving DecidableEq, Repr

/-- From `apiService.ts`, the response-error interceptor: on a 401 whose
request has not been retried, set `_retry`, read the stored refresh token,
and if present call refresh — on success store both new tokens, set the
auth headers and retry the original request; on failure remove both stored
tokens, clear the auth header and reject the refresh error.  Anything else
rejects the original error. -/
def interceptError (st : ClientState) (cfg : RequestConfig) (status : Nat)
    (outcome : RefreshOutcome) : InterceptResult :=
  if status = 401 ∧ cfg.retryFlag = false then
    let cfgRetried : RequestConfig := { cfg with retryFlag := true }
    match st.storage.refreshToken with
    | some _ =>
      match outcome with
      | RefreshOutcome.success acc ref =>
        { state := { storage := { accessToken := some acc, refreshToken := some ref },
                     authHeader := some acc }
          config := { cfgRetried with authHeader := some acc }
          action := InterceptAction.retryRequest
          refreshed := true }
      | RefreshOutcome.failure =>
        { state := { storage := { accessToken := none, refreshToken := none },
                     authHeader := none }
          config := cfgRetried
          action := InterceptAction.rejectRefreshError
          refreshed := true }
    | none =>
      { state := st, config := cfgRetried,
        action := InterceptAction.rejectOriginal, refreshed := false }
  else
    { state := st, config := cfg,
      action := InterceptAction.rejectOriginal, refreshed := false }

/-- Refresh invocations over a whole original request: the first response's
interception, and — when it retried — the interception of a second 401 on
the retried request. -/
def refreshCountTwo401s (st : ClientState) (cfg : RequestConfig)
    (outcome1 outcome2 : RefreshOutcome) : Nat :=
  let r1 := interceptError st cfg 401 outcome1
  if r1.action = InterceptAction.retryRequest then
    let r2 := interceptError r1.state r1.config 401 outcome2
    (if r1.refreshed then 1 else 0) + (if r2.refreshed then 1 else 0)
  else
    (if r1.refreshed then 1 else 0)

/-- The dedup invariant of spec 3: at most one Active alert per
`(customerId, alertType)`. -/
def AtMostOneActive (store : List FraudAlert) : Prop :=
  ∀ cid ty, countActive store cid ty ≤ 1

/-- The concrete scenario configuration of spec 8. -/
def sampleDetectorConfig : DetectorConfig :=
  { rapidRequestWindowDays := 30, rapidRequestCount := 2,
    debtRatioThreshold := 1/2, debtCeiling := 1000,
    chainHopWindowDays := 7, chainMinHops := 2, chainUnpaidRatio := 9/10,
    defaultRatioThreshold := 1/2, minPaymentSample := 5 }

/-- A risk configuration with the typical weight 2/5 of the spec 8 scenario
and a 30-day pattern decay. -/
def sampleRiskConfig : RiskConfig :=
  { baseWeight := fun _ => 2/5
    baseWeight_nonneg := fun _ => by norm_num
    baseWeight_le_one := fun _ => by norm_num
    patternDecayDays := 30 }

/-- An alert configuration with the spec 8 threshold 0.6 and the example
severity bands of spec 4.4. -/
def sampleAlertConfig : AlertConfig :=
  { alertThreshold := 3/5, lowUpper := 3/5, mediumUpper := 3/4, highUpper := 9/10 }

/-- A timeline with two requests inside a 30-day window ending at day 30. -/
def twoRequestTimeline : List HistoryEvent :=
  [⟨1, EventKind.requested, 0, 5⟩, ⟨2, EventKind.requested, 0, 10⟩]

/-- A timeline with three requests inside a 30-day window ending at day 30. -/
def threeRequestTimeline : List HistoryEvent :=
  [⟨1, EventKind.requested, 0, 5⟩, ⟨2, EventKind.requested, 0, 10⟩,
   ⟨3, EventKind.requested, 0, 20⟩]

/-- The customer of spec 8's sample-size scenario: one overdue payment out
of two total payment-due events. -/
def smallHistoryTimeline : List HistoryEvent :=
  [⟨1, EventKind.paymentDue, 100, 10⟩, ⟨1, EventKind.paymentDue, 100, 40⟩,
   ⟨1, EventKind.paymentOverdue, 100, 45⟩]

/-- A sample active alert used by concrete witnesses. -/
def sampleAlert : FraudAlert :=
  ⟨1, 1, AlertType.rapidRequests, "x", AlertSeverity.high, AlertStatus.active, 5, 5, none⟩

/-- A sample resolved alert used by concrete witnesses. -/
def resolvedAlert : FraudAlert :=
  ⟨1, 1, AlertType.rapidRequests, "x", AlertSeverity.high, AlertStatus.resolved, 5, 5, some 9⟩

section Theorems

/-- A list of factors each in `[0,1]` has a product in `[0,1]`. -/
theorem list_prod_mem_unit {l : List ℚ} (h0 : ∀ x ∈ l, 0 ≤ x)
    (h1 : ∀ x ∈ l, x ≤ 1) : 0 ≤ l.prod ∧ l.prod ≤ 1 := by
  induction l with
  | nil => simp
  | cons a t ih =>
    have ha0 : (0:ℚ) ≤ a := h0 a (by simp)
    have ha1 : a ≤ 1 := h1 a (by simp)
    have ht := ih (fun x hx => h0 x (by simp [hx])) (fun x hx => h1 x (by simp [hx]))
    rw [List.prod_cons]
    refine ⟨mul_nonneg ha0 ht.1, ?_⟩
    calc a * t.prod ≤ 1 * 1 := by
          exact mul_le_mul ha1 ht.2 ht.1 (by norm_num)
      _ = 1 := by norm_num

/-- C1: `computeRiskScore` returns exactly `1 - Π(1 - weight_i)` over the
currently-active patterns (those not older than `PATTERN_DECAY_DAYS` at
evaluation time), with each `weight_i` the configured base weight of the
pattern's type; the result is always in `[0,1]`; a decayed pattern
contributes nothing even if still stored; and the function is a total pure
function of its arguments. -/
theorem computeRiskScore_noisyOr_bounded (rc : RiskConfig) (asOf : Nat)
    (ps : List FraudPattern) :
    computeRiskScore rc asOf ps =
      1 - ((activePatterns rc asOf ps).map fun p => 1 - rc.baseWeight p.patternType).prod ∧
    0 ≤ computeRiskScore rc asOf ps ∧
    computeRiskScore rc asOf ps ≤ 1 ∧
    (∀ p : FraudPattern, rc.patternDecayDays < asOf - p.detectedAt →
      computeRiskScore rc asOf (p :: ps) = computeRiskScore rc asOf ps) := by
  have hprod : 0 ≤ ((activePatterns rc asOf ps).map
        fun p => 1 - rc.baseWeight p.patternType).prod ∧
      ((activePatterns rc asOf ps).map
        fun p => 1 - rc.baseWeight p.patternType).prod ≤ 1 := by
    apply list_prod_mem_unit
    · intro x hx
      rcases List.mem_map.mp hx with ⟨p, _, rfl⟩
      have := rc.baseWeight_le_one p.patternType
      linarith
    · intro x hx
      rcases List.mem_map.mp hx with ⟨p, _, rfl⟩
      have := rc.baseWeight_nonneg p.patternType
      linarith
  refine ⟨rfl, ?_, ?_, ?_⟩
  · unfold computeRiskScore
    linarith [hprod.2]
  · unfold computeRiskScore
    linarith [hprod.1]
  · intro p hp
    unfold computeRiskScore activePatterns
    rw [List.filter_cons_of_neg]
    simp only [decide_eq_true_eq]
    omega

/-- Witness for C1: with the spec 8 weights (2/5 each) two active patterns
give score 16/25 ∈ [0,1], and prepending a pattern 90 days old under a
30-day decay leaves the score unchanged. -/
theorem computeRiskScore_noisyOr_bounded_witness :
    (30:Nat) < 100 - 10 ∧
    computeRiskScore sampleRiskConfig 100
        (⟨3, 7, PatternType.rapidRequests, Evidence.rapidRequests [], 2/5, 10⟩ ::
         [⟨1, 7, PatternType.rapidRequests, Evidence.rapidRequests [], 2/5, 90⟩,
          ⟨2, 7, PatternType.crossBusinessChain, Evidence.crossBusinessChain [], 2/5, 95⟩]) =
      computeRiskScore sampleRiskConfig 100
        [⟨1, 7, PatternType.rapidRequests, Evidence.rapidRequests [], 2/5, 90⟩,
         ⟨2, 7, PatternType.crossBusinessChain, Evidence.crossBusinessChain [], 2/5, 95⟩] ∧
    computeRiskScore sampleRiskConfig 100
        [⟨1, 7, PatternType.rapidRequests, Evidence.rapidRequests [], 2/5, 90⟩,
         ⟨2, 7, PatternType.crossBusinessChain, Evidence.crossBusinessChain [], 2/5, 95⟩] = 16/25 ∧
    (0:ℚ) ≤ 16/25 ∧ (16:ℚ)/25 ≤ 1 :=
  ⟨by norm_num,
   (computeRiskScore_noisyOr_bounded sampleRiskConfig 100
      [⟨1, 7, PatternType.rapidRequests, Evidence.rapidRequests [], 2/5, 90⟩,
       ⟨2, 7, PatternType.crossBusinessChain, Evidence.crossBusinessChain [], 2/5, 95⟩]).2.2.2
      ⟨3, 7, PatternType.rapidRequests, Evidence.rapidRequests [], 2/5, 10⟩
      (by norm_num [sampleRiskConfig]),
   by norm_num [computeRiskScore, activePatterns, sampleRiskConfig],
   by norm_num, by norm_num⟩

/-- C4: the RapidRequests detector fires iff the count of `Requested`
events in the window of `RAPID_REQUEST_WINDOW_DAYS` ending at `asOf` is
strictly greater than `RAPID_REQUEST_COUNT`: a count exactly equal to the
threshold does not fire, and `RAPID_REQUEST_COUNT + 1` does. -/
theorem rapidRequests_strict_boundary (cfg : DetectorConfig) (asOf : Nat)
    (tl : List HistoryEvent) :
    (detectRapidRequests cfg asOf tl ≠ [] ↔
      cfg.rapidRequestCount < (requestedInWindow cfg asOf tl).length) ∧
    ((requestedInWindow cfg asOf tl).length = cfg.rapidRequestCount →
      detectRapidRequests cfg asOf tl = []) ∧
    ((requestedInWindow cfg asOf tl).length = cfg.rapidRequestCount + 1 →
      detectRapidRequests cfg asOf tl ≠ []) := by
  unfold detectRapidRequests
  split_ifs with h
  · exact ⟨⟨fun _ => h, fun _ => by simp⟩, fun hlen => by omega, fun _ => by simp⟩
  · exact ⟨⟨fun hne => absurd rfl hne, fun hlt => absurd hlt h⟩,
      fun _ => rfl, fun hlen => by omega⟩

/-- Witness for C4: under the spec 8 configuration (window 30, threshold 2)
two windowed requests do not fire and three do. -/
theorem rapidRequests_strict_boundary_witness :
    (requestedInWindow sampleDetectorConfig 30 twoRequestTimeline).length =
      sampleDetectorConfig.rapidRequestCount ∧
    detectRapidRequests sampleDetectorConfig 30 twoRequestTimeline = [] ∧
    (requestedInWindow sampleDetectorConfig 30 threeRequestTimeline).length =
      sampleDetectorConfig.rapidRequestCount + 1 ∧
    detectRapidRequests sampleDetectorConfig 30 threeRequestTimeline ≠ [] :=
  ⟨by decide,
   (rapidRequests_strict_boundary sampleDetectorConfig 30 twoRequestTimeline).2.1 (by decide),
   by decide,
   (rapidRequests_strict_boundary sampleDetectorConfig 30 threeRequestTimeline).2.2 (by decide)⟩

/-- C6: the PaymentDefaultPattern detector fires iff the overdue/total
ratio is strictly greater than `DEFAULT_RATIO_THRESHOLD` and the total
`PaymentDue` count meets `MIN_PAYMENT_SAMPLE`; in particular a customer
with 2 total payment-due events under `MIN_PAYMENT_SAMPLE = 5` triggers
nothing. -/
theorem paymentDefault_sample_guard (cfg : DetectorConfig)
    (tl : List HistoryEvent) :
    (detectPaymentDefault cfg tl ≠ [] ↔
      (cfg.minPaymentSample ≤ paymentDueCount tl ∧
       cfg.defaultRatioThreshold <
         (paymentOverdueCount tl : ℚ) / (paymentDueCount tl : ℚ))) ∧
    (cfg.minPaymentSample = 5 → paymentDueCount tl = 2 →
      detectPaymentDefault cfg tl = []) := by
  unfold detectPaymentDefault
  split_ifs with h
  · exact ⟨⟨fun _ => h, fun _ => by simp⟩, fun h5 h2 => by omega⟩
  · exact ⟨⟨fun hne => absurd rfl hne, fun hc => absurd hc h⟩, fun _ _ => rfl⟩

/-- Witness for C6: one overdue payment out of 2 total under
`MIN_PAYMENT_SAMPLE = 5` produces no finding. -/
theorem paymentDefault_sample_guard_witness :
    sampleDetectorConfig.minPaymentSample = 5 ∧
    paymentDueCount smallHistoryTimeline = 2 ∧
    paymentOverdueCount smallHistoryTimeline = 1 ∧
    detectPaymentDefault sampleDetectorConfig smallHistoryTimeline = [] :=
  ⟨rfl, by decide, by decide,
   (paymentDefault_sample_guard sampleDetectorConfig smallHistoryTimeline).2 rfl (by decide)⟩

/-- Running a cons of detectors is the head's findings followed by the rest. -/
theorem runDetectors_cons (d : Detector) (ds : List Detector)
    (cfg : DetectorConfig) (asOf : Nat) (tl : List HistoryEvent) :
    runDetectors (d :: ds) cfg asOf tl =
      runDetector d cfg asOf tl ++ runDetectors ds cfg asOf tl := rfl

/-- Running appended detector lists concatenates their findings. -/
theorem runDetectors_append (l1 l2 : List Detector) (cfg : DetectorConfig)
    (asOf : Nat) (tl : List HistoryEvent) :
    runDetectors (l1 ++ l2) cfg asOf tl =
      runDetectors l1 cfg asOf tl ++ runDetectors l2 cfg asOf tl := by
  induction l1 with
  | nil => rfl
  | cons d t ih =>
    rw [List.cons_append, runDetectors_cons, runDetectors_cons, ih, List.append_assoc]

/-- C7: when one detector raises (`InvalidConfigurationError` or any other
exception), the analysis still succeeds with that detector skipped: its
contribution is excluded and the result — remaining findings, risk score
and recommendations — is the one computed from the other detectors. -/
theorem analysis_skips_failing_detector (ds1 ds2 : List Detector)
    (d : Detector) (cfg : DetectorConfig) (rc : RiskConfig) (thr : ℚ)
    (asOf : Nat) (tl : List HistoryEvent) (e : DetectorError)
    (h : d cfg asOf tl = Except.error e) :
    analyzeTimeline (ds1 ++ d :: ds2) cfg rc thr asOf tl =
      analyzeTimeline (ds1 ++ ds2) cfg rc thr asOf tl := by
  have hd : runDetector d cfg asOf tl = [] := by
    unfold runDetector; rw [h]
  have hrun : runDetectors (ds1 ++ d :: ds2) cfg asOf tl =
      runDetectors (ds1 ++ ds2) cfg asOf tl := by
    rw [runDetectors_append, runDetectors_append, runDetectors_cons, hd,
      List.nil_append]
  unfold analyzeTimeline
  rw [hrun]

/-- Witness for C7: a detector raising `InvalidConfigurationError` on a
negative window is skipped and the analysis equals the one without it. -/
theorem analysis_skips_failing_detector_witness :
    analyzeTimeline
        [paymentDefaultDetector,
         fun _ _ _ => Except.error (DetectorError.invalidConfiguration "negative window")]
        sampleDetectorConfig sampleRiskConfig (3/5) 50 smallHistoryTimeline =
      analyzeTimeline [paymentDefaultDetector]
        sampleDetectorConfig sampleRiskConfig (3/5) 50 smallHistoryTimeline :=
  analysis_skips_failing_detector [paymentDefaultDetector] []
    (fun _ _ _ => Except.error (DetectorError.invalidConfiguration "negative window"))
    sampleDetectorConfig sampleRiskConfig (3/5) 50 smallHistoryTimeline
    (DetectorError.invalidConfiguration "negative window") rfl

/-- C8: `getFraudAlerts(filters, pagination)` is a pure read: it returns a
page of alerts drawn from the stored alerts (each passing the filters) and
leaves every piece of stored state — alerts, patterns and all other
records — unchanged. -/
theorem getFraudAlerts_pure_read (st : ServerState) (flt : AlertFilter)
    (pg : Pagination) :
    (getFraudAlerts st flt pg).2 = st ∧
    (getFraudAlerts st flt pg).2.alerts = st.alerts ∧
    (getFraudAlerts st flt pg).2.patterns = st.patterns ∧
    (getFraudAlerts st flt pg).2.otherRecords = st.otherRecords ∧
    ∀ a ∈ (getFraudAlerts st flt pg).1, a ∈ st.alerts ∧ alertMatches flt a = true := by
  refine ⟨rfl, rfl, rfl, rfl, ?_⟩
  intro a ha
  have h1 : a ∈ st.alerts.filter (alertMatches flt) :=
    List.mem_of_mem_drop (List.mem_of_mem_take ha)
  exact ⟨(List.mem_filter.mp h1).1, (List.mem_filter.mp h1).2⟩

/-- Witness for C8: on a one-alert store the read returns that alert and
leaves the state exactly as it was. -/
theorem getFraudAlerts_pure_read_witness :
    (getFraudAlerts ⟨[sampleAlert], [], [7]⟩ ⟨some 1, some AlertStatus.active⟩ ⟨1, 10⟩).2 =
      ⟨[sampleAlert], [], [7]⟩ ∧
    sampleAlert ∈
      (getFraudAlerts ⟨[sampleAlert], [], [7]⟩ ⟨some 1, some AlertStatus.active⟩ ⟨1, 10⟩).1 ∧
    sampleAlert ∈ (⟨[sampleAlert], [], [7]⟩ : ServerState).alerts ∧
    alertMatches ⟨some 1, some AlertStatus.active⟩ sampleAlert = true :=
  ⟨(getFraudAlerts_pure_read ⟨[sampleAlert], [], [7]⟩ ⟨some 1, some AlertStatus.active⟩ ⟨1, 10⟩).1,
   by decide,
   ((getFraudAlerts_pure_read ⟨[sampleAlert], [], [7]⟩ ⟨some 1, some AlertStatus.active⟩
      ⟨1, 10⟩).2.2.2.2 sampleAlert (by decide)).1,
   ((getFraudAlerts_pure_read ⟨[sampleAlert], [], [7]⟩ ⟨some 1, some AlertStatus.active⟩
      ⟨1, 10⟩).2.2.2.2 sampleAlert (by decide)).2⟩

/-- C9: `handleApiError` is total and returns a non-empty string, chosen by
fixed precedence: the nested response message when (JS-)present, else the
response detail, else the error's own message, else the fixed literal. -/
theorem handleApiError_precedence_nonempty (e : ApiError) :
    handleApiError e ≠ "" ∧
    (jsTruthy (chainMessage e) = true → some (handleApiError e) = chainMessage e) ∧
    (jsTruthy (chainMessage e) = false → jsTruthy (chainDetail e) = true →
      some (handleApiError e) = chainDetail e) ∧
    (jsTruthy (chainMessage e) = false → jsTruthy (chainDetail e) = false →
      jsTruthy e.message = true → some (handleApiError e) = e.message) ∧
    (jsTruthy (chainMessage e) = false → jsTruthy (chainDetail e) = false →
      jsTruthy e.message = false →
      handleApiError e = "An unexpected error occurred") := by
  unfold handleApiError
  rcases hm : chainMessage e with _ | m <;>
    rcases hd : chainDetail e with _ | d <;>
    rcases hs : e.message with _ | s <;>
    simp only [jsOrElse, jsTruthy, hm, hd, hs] <;>
    (try split_ifs) <;>
    simp_all

/-- Witness for C9: each precedence branch at a concrete input. -/
theorem handleApiError_witness :
    handleApiError ⟨none, none⟩ = "An unexpected error occurred" ∧
    handleApiError ⟨some ⟨some ⟨some ⟨some "boom"⟩, some "d"⟩⟩, some "m"⟩ = "boom" ∧
    handleApiError ⟨some ⟨some ⟨some ⟨some ""⟩, some "d"⟩⟩, some "m"⟩ = "d" ∧
    handleApiError ⟨some ⟨some ⟨none, none⟩⟩, some "m"⟩ = "m" ∧
    handleApiError ⟨some ⟨some ⟨none, some ""⟩⟩, some ""⟩ = "An unexpected error occurred" := by
  have h1 := (handleApiError_precedence_nonempty ⟨none, none⟩).2.2.2.2 rfl rfl rfl
  have h2 := (handleApiError_precedence_nonempty
    ⟨some ⟨some ⟨some ⟨some "boom"⟩, some "d"⟩⟩, some "m"⟩).2.1 (by decide)
  have h3 := (handleApiError_precedence_nonempty
    ⟨some ⟨some ⟨some ⟨some ""⟩, some "d"⟩⟩, some "m"⟩).2.2.1 (by decide) (by decide)
  have h4 := (handleApiError_precedence_nonempty
    ⟨some ⟨some ⟨none, none⟩⟩, some "m"⟩).2.2.2.1 rfl rfl (by decide)
  exact ⟨h1, by simpa [chainMessage] using h2, by simpa [chainDetail] using h3,
    by simpa using h4,
    (handleApiError_precedence_nonempty
      ⟨some ⟨some ⟨none, some ""⟩⟩, some ""⟩).2.2.2.2 (by decide) (by decide) (by decide)⟩

/-- C10: the response interceptor attempts the refresh-and-retry path at
most once per original request — the `_retry` flag makes a second 401
reject without another refresh, so over both rounds at most one refresh
happens — and a failed refresh removes both stored tokens and clears the
auth header before rejecting. -/
theorem interceptor_single_refresh_and_cleanup (st : ClientState)
    (cfg : RequestConfig) (o1 o2 : RefreshOutcome) :
    (cfg.retryFlag = true →
      interceptError st cfg 401 o1 =
        ⟨st, cfg, InterceptAction.rejectOriginal, false⟩) ∧
    refreshCountTwo401s st cfg o1 o2 ≤ 1 ∧
    (cfg.retryFlag = false → st.storage.refreshToken.isSome = true →
      o1 = RefreshOutcome.failure →
      (interceptError st cfg 401 o1).state.storage.accessToken = none ∧
      (interceptError st cfg 401 o1).state.storage.refreshToken = none ∧
      (interceptError st cfg 401 o1).state.authHeader = none ∧
      (interceptError st cfg 401 o1).action = InterceptAction.rejectRefreshError) := by
  refine ⟨?_, ?_, ?_⟩
  · intro hretry
    unfold interceptError
    rw [if_neg]
    simp [hretry]
  · unfold refreshCountTwo401s interceptError
    rcases hflag : cfg.retryFlag with _ | _ <;>
      rcases htok : st.storage.refreshToken with _ | t <;>
      rcases o1 <;> simp [hflag, htok]
  · intro hflag htok hfail
    subst hfail
    rcases htok2 : st.storage.refreshToken with _ | t
    · rw [htok2] at htok; simp at htok
    · unfold interceptError
      rw [if_pos ⟨rfl, hflag⟩, htok2]
      exact ⟨rfl, rfl, rfl, rfl⟩

/-- Witness for C10: with a stored refresh token and an un-retried request,
a 401 whose refresh fails clears both tokens and the header, and two 401
rounds never refresh twice. -/
theorem interceptor_single_refresh_and_cleanup_witness :
    (interceptError ⟨⟨some "a", some "r"⟩, some "a"⟩ ⟨false, some "a"⟩ 401
        RefreshOutcome.failure).state.storage.accessToken = none ∧
    (interceptError ⟨⟨some "a", some "r"⟩, some "a"⟩ ⟨false, some "a"⟩ 401
        RefreshOutcome.failure).state.storage.refreshToken = none ∧
    (interceptError ⟨⟨some "a", some "r"⟩, some "a"⟩ ⟨false, some "a"⟩ 401
        RefreshOutcome.failure).state.authHeader = none ∧
    (interceptError ⟨⟨some "a", some "r"⟩, some "a"⟩ ⟨false, some "a"⟩ 401
        RefreshOutcome.failure).action = InterceptAction.rejectRefreshError ∧
    refreshCountTwo401s ⟨⟨some "a", some "r"⟩, some "a"⟩ ⟨false, some "a"⟩
      (RefreshOutcome.success "a2" "r2") (RefreshOutcome.success "a3" "r3") ≤ 1 := by
  have h := (interceptor_single_refresh_and_cleanup ⟨⟨some "a", some "r"⟩, some "a"⟩
    ⟨false, some "a"⟩ RefreshOutcome.failure RefreshOutcome.failure).2.2 rfl rfl rfl
  have hcount := (interceptor_single_refresh_and_cleanup ⟨⟨some "a", some "r"⟩, some "a"⟩
    ⟨false, some "a"⟩ (RefreshOutcome.success "a2" "r2") (RefreshOutcome.success "a3" "r3")).2.1
  exact ⟨h.1, h.2.1, h.2.2.1, h.2.2.2, hcount⟩

/-- C2: the status of a FraudAlert ranges over exactly the four enum values
of `alert_status`; Resolved and FalsePositive are terminal — no alert-store
operation moves (or removes) an alert that is in a terminal status; and
once every alert of a `(customerId, alertType)` pair is terminal, a later
independent trigger creates a fresh Active alert for that pair. -/
theorem alertStatus_domain_and_terminality :
    (∀ s : AlertStatus, s = AlertStatus.active ∨ s = AlertStatus.investigating ∨
      s = AlertStatus.resolved ∨ s = AlertStatus.falsePositive) ∧
    (∀ (cfg : AlertConfig) (store : List FraudAlert) (op : AlertOp) (a : FraudAlert),
      a ∈ store → terminal a.status = true → a ∈ applyAlertOp cfg store op) ∧
    (∀ (cfg : AlertConfig) (store : List FraudAlert) (cid : Nat) (ty : AlertType)
       (score : ℚ) (now nextId : Nat),
      (∀ a ∈ store, a.customerId = cid → a.alertType = ty → terminal a.status = true) →
      ¬ score < cfg.alertThreshold →
      ∃ b ∈ triggerAlert cfg store cid ty score now nextId,
        b.customerId = cid ∧ b.alertType = ty ∧ b.status = AlertStatus.active ∧
        b.createdAt = now) := by
  refine ⟨?_, ?_, ?_⟩
  · intro s; cases s <;> simp
  · intro cfg store op a ha hterm
    have hnotactive : a.status ≠ AlertStatus.active := by
      intro h; rw [h] at hterm; simp [terminal] at hterm
    cases op with
    | trigger cid ty score now nextId =>
      show a ∈ triggerAlert cfg store cid ty score now nextId
      unfold triggerAlert
      split_ifs with h1 h2
      · exact ha
      · refine List.mem_map.mpr ⟨a, ha, ?_⟩
        rw [if_neg]
        rintro ⟨-, -, hst⟩; exact hnotactive hst
      · exact List.mem_cons_of_mem _ ha
    | investigator alertId v now =>
      show a ∈ investigatorSet store alertId v now
      unfold investigatorSet
      refine List.mem_map.mpr ⟨a, ha, ?_⟩
      rw [if_neg]
      rintro ⟨-, hf⟩; rw [hterm] at hf; exact Bool.noConfusion hf
  · intro cfg store cid ty score now nextId hterm hscore
    have hno : ¬ hasOpenAlert store cid ty := by
      rintro ⟨a, ha, hcid, hty, hst⟩
      have hta := hterm a ha hcid hty
      rcases hst with h | h <;> rw [h] at hta <;> simp [terminal] at hta
    unfold triggerAlert
    rw [if_neg hscore, if_neg hno]
    exact ⟨_, List.mem_cons_self _ _, rfl, rfl, rfl, rfl⟩

/-- Witness for C2: a terminal (resolved) alert survives a trigger
unchanged, and the trigger creates a fresh Active alert alongside it. -/
theorem alertStatus_domain_and_terminality_witness :
    terminal resolvedAlert.status = true ∧
    resolvedAlert ∈ applyAlertOp sampleAlertConfig [resolvedAlert]
      (AlertOp.trigger 1 AlertType.rapidRequests 1 20 2) ∧
    ∃ b ∈ triggerAlert sampleAlertConfig [resolvedAlert] 1 AlertType.rapidRequests 1 20 2,
      b.customerId = 1 ∧ b.alertType = AlertType.rapidRequests ∧
      b.status = AlertStatus.active ∧ b.createdAt = 20 := by
  refine ⟨rfl, ?_, ?_⟩
  · exact alertStatus_domain_and_terminality.2.1 sampleAlertConfig [resolvedAlert]
      (AlertOp.trigger 1 AlertType.rapidRequests 1 20 2) resolvedAlert (by simp) rfl
  · exact alertStatus_domain_and_terminality.2.2 sampleAlertConfig [resolvedAlert]
      1 AlertType.rapidRequests 1 20 2
      (by rintro a ha - -; rw [List.mem_singleton] at ha; subst ha; rfl)
      (by norm_num [sampleAlertConfig])

/-- Refreshing evidence timestamps changes no key or status field, so the
Active count of every `(customerId, alertType)` pair is unchanged. -/
theorem countActive_map_refresh (store : List FraudAlert) (cid : Nat)
    (ty : AlertType) (now : Nat) (cid' : Nat) (ty' : AlertType) :
    countActive (store.map fun a =>
      if a.customerId = cid ∧ a.alertType = ty ∧ a.status = AlertStatus.active then
        { a with evidenceTimestamp := now }
      else a) cid' ty' = countActive store cid' ty' := by
  unfold countActive
  rw [List.countP_map]
  apply List.countP_congr
  intro a _
  by_cases hc : a.customerId = cid ∧ a.alertType = ty ∧ a.status = AlertStatus.active
  · simp [Function.comp, hc]
  · simp [Function.comp, hc]

/-- A store without an open `(customerId, alertType)` alert has no Active
alert of that pair. -/
theorem countActive_eq_zero_of_closed (store : List FraudAlert) (cid : Nat)
    (ty : AlertType) (h : ¬ hasOpenAlert store cid ty) :
    countActive store cid ty = 0 := by
  unfold countActive
  rw [List.countP_eq_zero]
  intro a ha hp
  rw [decide_eq_true_eq] at hp
  exact h ⟨a, ha, hp.1, hp.2.1, Or.inl hp.2.2⟩

/-- C3: the dedup invariant — at most one Active alert per
`(customerId, alertType)` — is preserved by every alert operation, and two
triggers in quick succession on a pair with no open alert leave exactly one
Active alert row for that pair, no extra row, and the evidence timestamp of
the second trigger. -/
theorem fraudAlert_active_dedup :
    (∀ (cfg : AlertConfig) (store : List FraudAlert) (op : AlertOp),
      AtMostOneActive store → AtMostOneActive (applyAlertOp cfg store op)) ∧
    (∀ (cfg : AlertConfig) (store : List FraudAlert) (cid : Nat) (ty : AlertType)
       (sc1 sc2 : ℚ) (n1 n2 id1 id2 : Nat),
      ¬ hasOpenAlert store cid ty →
      ¬ sc1 < cfg.alertThreshold → ¬ sc2 < cfg.alertThreshold →
      countActive (triggerAlert cfg (triggerAlert cfg store cid ty sc1 n1 id1)
        cid ty sc2 n2 id2) cid ty = 1 ∧
      (triggerAlert cfg (triggerAlert cfg store cid ty sc1 n1 id1)
        cid ty sc2 n2 id2).length =
        (triggerAlert cfg store cid ty sc1 n1 id1).length ∧
      ∃ b ∈ triggerAlert cfg (triggerAlert cfg store cid ty sc1 n1 id1)
          cid ty sc2 n2 id2,
        b.customerId = cid ∧ b.alertType = ty ∧ b.status = AlertStatus.active ∧
        b.evidenceTimestamp = n2) := by
  constructor
  · intro cfg store op hinv
    cases op with
    | trigger cid ty score now nextId =>
      show AtMostOneActive (triggerAlert cfg store cid ty score now nextId)
      unfold triggerAlert
      split_ifs with h1 h2
      · exact hinv
      · intro cid' ty'
        rw [countActive_map_refresh]
        exact hinv cid' ty'
      · intro cid' ty'
        unfold countActive
        rw [List.countP_cons]
        by_cases hkey : cid = cid' ∧ ty = ty'
        · rcases hkey with ⟨rfl, rfl⟩
          have hz := countActive_eq_zero_of_closed store cid ty h2
          unfold countActive at hz
          rw [hz]
          simp
        · simp only [decide_eq_true_eq]
          split_ifs with hnew
          · exact absurd ⟨hnew.1, hnew.2.1⟩ hkey
          · have h0 := hinv cid' ty'
            unfold countActive at h0
            omega
    | investigator alertId v now =>
      show AtMostOneActive (investigatorSet store alertId v now)
      intro cid' ty'
      refine le_trans ?_ (hinv cid' ty')
      unfold countActive investigatorSet
      rw [List.countP_map]
      apply List.countP_mono_left
      intro a _ hp
      by_cases hc : a.id = alertId ∧ terminal a.status = false
      · exfalso
        rw [Function.comp_apply, if_pos hc] at hp
        cases v <;> simp_all
      · rwa [Function.comp_apply, if_neg hc] at hp
  · intro cfg store cid ty sc1 sc2 n1 n2 id1 id2 hno hs1 hs2
    set t1 := triggerAlert cfg store cid ty sc1 n1 id1 with ht1def
    have ht1 : t1 =
        { id := id1, customerId := cid, alertType := ty,
          description := "fraud risk threshold crossed",
          severity := severityOf cfg sc1, status := AlertStatus.active,
          evidenceTimestamp := n1, createdAt := n1, resolvedAt := none } :: store := by
      rw [ht1def]
      unfold triggerAlert
      rw [if_neg hs1, if_neg hno]
    have hopen1 : hasOpenAlert t1 cid ty := by
      rw [ht1]
      exact ⟨_, List.mem_cons_self _ _, rfl, rfl, Or.inl rfl⟩
    have ht2 : triggerAlert cfg t1 cid ty sc2 n2 id2 =
        t1.map fun a =>
          if a.customerId = cid ∧ a.alertType = ty ∧ a.status = AlertStatus.active then
            { a with evidenceTimestamp := n2 }
          else a := by
      unfold triggerAlert
      rw [if_neg hs2, if_pos hopen1]
    refine ⟨?_, ?_, ?_⟩
    · rw [ht2, countActive_map_refresh, ht1]
      unfold countActive
      rw [List.countP_cons]
      have hz := countActive_eq_zero_of_closed store cid ty hno
      unfold countActive at hz
      rw [hz]
      simp
    · rw [ht2, List.length_map]
    · rw [ht2, ht1]
      refine ⟨_, List.mem_map.mpr ⟨_, List.mem_cons_self _ _, rfl⟩, ?_⟩
      rw [if_pos ⟨rfl, rfl, rfl⟩]
      exact ⟨rfl, rfl, rfl, rfl⟩

/-- Witness for C3: from an empty store, two quick triggers for
`(customer 1, RapidRequests)` leave exactly one Active row, add no second
row, and carry the second trigger's evidence timestamp. -/
theorem fraudAlert_active_dedup_witness :
    countActive (triggerAlert sampleAlertConfig
        (triggerAlert sampleAlertConfig [] 1 AlertType.rapidRequests 1 10 1)
        1 AlertType.rapidRequests 1 20 2) 1 AlertType.rapidRequests = 1 ∧
    (triggerAlert sampleAlertConfig
        (triggerAlert sampleAlertConfig [] 1 AlertType.rapidRequests 1 10 1)
        1 AlertType.rapidRequests 1 20 2).length =
      (triggerAlert sampleAlertConfig [] 1 AlertType.rapidRequests 1 10 1).length ∧
    ∃ b ∈ triggerAlert sampleAlertConfig
        (triggerAlert sampleAlertConfig [] 1 AlertType.rapidRequests 1 10 1)
        1 AlertType.rapidRequests 1 20 2,
      b.customerId = 1 ∧ b.alertType = AlertType.rapidRequests ∧
      b.status = AlertStatus.active ∧ b.evidenceTimestamp = 20 :=
  fraudAlert_active_dedup.2 sampleAlertConfig [] 1 AlertType.rapidRequests 1 1 10 20 1 2
    (by rintro ⟨a, ha, -⟩; exact absurd ha (List.not_mem_nil a))
    (by norm_num [sampleAlertConfig]) (by norm_num [sampleAlertConfig])

/-- An upsert never removes a stored `(customerId, patternType)` key. -/
theorem hasCoreRow_coreUpsert (m : List PatternCore) (cid : Nat)
    (f : FraudFinding) (cid' : Nat) (ty' : PatternType)
    (h : hasCoreRow m cid' ty') : hasCoreRow (coreUpsert m cid f) cid' ty' := by
  rcases h with ⟨r, hr, h1, h2⟩
  unfold coreUpsert
  split_ifs with hpres
  · refine ⟨_, List.mem_map_of_mem _ hr, ?_⟩
    by_cases hc : r.customerId = cid ∧ r.patternType = f.patternType
    · rw [if_pos hc]; exact ⟨h1, h2⟩
    · rw [if_neg hc]; exact ⟨h1, h2⟩
  · exact ⟨r, by simp [hr], h1, h2⟩

/-- After an upsert the upserted key is present. -/
theorem hasCoreRow_coreUpsert_self (m : List PatternCore) (cid : Nat)
    (f : FraudFinding) : hasCoreRow (coreUpsert m cid f) cid f.patternType := by
  unfold coreUpsert
  split_ifs with hpres
  · rcases hpres with ⟨r, hr, h1, h2⟩
    refine ⟨_, List.mem_map_of_mem _ hr, ?_⟩
    simp [h1, h2]
  · exact ⟨⟨cid, f.patternType, f.evidence⟩, by simp, rfl, rfl⟩

/-- The fold of upserts never removes a stored key. -/
theorem hasCoreRow_corePersist (fs : List FraudFinding) (m : List PatternCore)
    (cid : Nat) (cid' : Nat) (ty' : PatternType) (h : hasCoreRow m cid' ty') :
    hasCoreRow (corePersist m cid fs) cid' ty' := by
  induction fs generalizing m with
  | nil => exact h
  | cons f rest ih => exact ih _ (hasCoreRow_coreUpsert m cid f cid' ty' h)

/-- Every persisted finding's key is present after the fold. -/
theorem hasCoreRow_corePersist_of_mem (fs : List FraudFinding)
    (m : List PatternCore) (cid : Nat) (f : FraudFinding) (hf : f ∈ fs) :
    hasCoreRow (corePersist m cid fs) cid f.patternType := by
  induction fs generalizing m with
  | nil => cases hf
  | cons g rest ih =>
    rcases List.mem_cons.mp hf with rfl | hf'
    · exact hasCoreRow_corePersist rest _ cid cid f.patternType
        (hasCoreRow_coreUpsert_self m cid f)
    · exact ih _ hf'

/-- When the tail already writes the type, the head is shadowed. -/
theorem lastEvidence_cons_of_some (f : FraudFinding) (rest : List FraudFinding)
    (t : PatternType) (e : Evidence) (h : lastEvidence rest t = some e) :
    lastEvidence (f :: rest) t = some e := by
  unfold lastEvidence
  rw [h]

/-- When the tail writes nothing for the type, the head decides. -/
theorem lastEvidence_cons_of_none (f : FraudFinding) (rest : List FraudFinding)
    (t : PatternType) (h : lastEvidence rest t = none) :
    lastEvidence (f :: rest) t =
      if f.patternType = t then some f.evidence else none := by
  unfold lastEvidence
  rw [h]

/-- A findings list writes nothing for a type iff no finding has it. -/
theorem lastEvidence_eq_none_iff (fs : List FraudFinding) (t : PatternType) :
    lastEvidence fs t = none ↔ ∀ f ∈ fs, f.patternType ≠ t := by
  induction fs with
  | nil => simp [lastEvidence]
  | cons f rest ih =>
    constructor
    · intro h0
      have hrest : lastEvidence rest t = none := by
        rcases h : lastEvidence rest t with _ | e
        · rfl
        · rw [lastEvidence_cons_of_some f rest t e h] at h0
          exact Option.noConfusion h0
      have hhead : f.patternType ≠ t := by
        intro hft
        rw [lastEvidence_cons_of_none f rest t hrest, if_pos hft] at h0
        exact Option.noConfusion h0
      intro g hg
      rcases List.mem_cons.mp hg with rfl | hg'
      · exact hhead
      · exact ih.mp hrest g hg'
    · intro hall
      have hrest : lastEvidence rest t = none :=
        ih.mpr fun g hg => hall g (List.mem_cons_of_mem _ hg)
      rw [lastEvidence_cons_of_none f rest t hrest,
        if_neg (hall f (List.mem_cons_self f rest))]

/-- An empty write batch changes nothing. -/
theorem applyWrites_none (cid : Nat) (m : List PatternCore) :
    applyWrites cid (fun _ => none) m = m := by
  unfold applyWrites
  simp

/-- Two write batches compose, the later batch winning. -/
theorem applyWrites_applyWrites (cid : Nat) (g1 g2 : PatternType → Option Evidence)
    (m : List PatternCore) :
    applyWrites cid g2 (applyWrites cid g1 m) =
      applyWrites cid (fun t =>
        match g2 t with
        | some e => some e
        | none => g1 t) m := by
  unfold applyWrites
  rw [List.map_map]
  apply List.map_congr_left
  intro r _
  by_cases hc : r.customerId = cid
  · rcases h1 : g1 r.patternType with _ | e1 <;>
      rcases h2 : g2 r.patternType with _ | e2 <;>
      simp [Function.comp, hc, h1, h2]
  · simp [Function.comp, hc]

/-- When the key is already present, the upsert is a pure write. -/
theorem coreUpsert_eq_applyWrites (m : List PatternCore) (cid : Nat)
    (f : FraudFinding) (h : hasCoreRow m cid f.patternType) :
    coreUpsert m cid f =
      applyWrites cid
        (fun t => if f.patternType = t then some f.evidence else none) m := by
  unfold coreUpsert applyWrites
  rw [if_pos h]
  apply List.map_congr_left
  intro r _
  by_cases hcid : r.customerId = cid
  · by_cases hty : r.patternType = f.patternType
    · rw [if_pos ⟨hcid, hty⟩]
      simp [hty, hcid]
    · rw [if_neg (fun hc => hty hc.2)]
      have hne : f.patternType ≠ r.patternType := fun hc => hty hc.symm
      simp [hcid, hne]
  · rw [if_neg (fun hc => hcid hc.1)]
    simp [hcid]

/-- Writes never change keys, so presence is preserved. -/
theorem hasCoreRow_applyWrites (cid : Nat) (g : PatternType → Option Evidence)
    (m : List PatternCore) (cid' : Nat) (ty' : PatternType)
    (h : hasCoreRow m cid' ty') : hasCoreRow (applyWrites cid g m) cid' ty' := by
  rcases h with ⟨r, hr, h1, h2⟩
  refine ⟨_, List.mem_map_of_mem _ hr, ?_⟩
  by_cases hc : r.customerId = cid
  · rcases hg : g r.patternType with _ | e
    · rw [if_pos hc]; exact ⟨h1, h2⟩
    · rw [if_pos hc]; exact ⟨h1, h2⟩
  · rw [if_neg hc]; exact ⟨h1, h2⟩

/-- A fold of upserts whose keys are all present is one write batch. -/
theorem corePersist_eq_applyWrites (fs : List FraudFinding)
    (m : List PatternCore) (cid : Nat)
    (h : ∀ f ∈ fs, hasCoreRow m cid f.patternType) :
    corePersist m cid fs = applyWrites cid (lastEvidence fs) m := by
  induction fs generalizing m with
  | nil =>
    show m = applyWrites cid (lastEvidence []) m
    rw [show lastEvidence [] = fun _ => none from rfl, applyWrites_none]
  | cons f rest ih =>
    show corePersist (coreUpsert m cid f) cid rest =
      applyWrites cid (lastEvidence (f :: rest)) m
    rw [coreUpsert_eq_applyWrites m cid f (h f (List.mem_cons_self f rest))]
    rw [ih _ fun g hg => hasCoreRow_applyWrites cid _ m cid g.patternType
      (h g (List.mem_cons_of_mem _ hg))]
    rw [applyWrites_applyWrites]
    congr 1

/-- Rows of a type the findings never write pass through the fold. -/
theorem mem_coreUpsert_of_ne_ty (m : List PatternCore) (cid : Nat)
    (f : FraudFinding) (r : PatternCore)
    (hne : f.patternType ≠ r.patternType) :
    r ∈ coreUpsert m cid f ↔ r ∈ m := by
  unfold coreUpsert
  split_ifs with hpres
  · constructor
    · intro hmem
      rcases List.mem_map.mp hmem with ⟨r2, hr2, heq⟩
      by_cases hc : r2.customerId = cid ∧ r2.patternType = f.patternType
      · rw [if_pos hc] at heq
        exfalso
        have : r.patternType = f.patternType := by rw [← heq]; exact hc.2
        exact hne this.symm
      · rw [if_neg hc] at heq
        rwa [← heq]
    · intro hmem
      refine List.mem_map.mpr ⟨r, hmem, ?_⟩
      rw [if_neg (fun hc => hne hc.2.symm)]
  · rw [List.mem_append]
    constructor
    · rintro (hmem | hnew)
      · exact hmem
      · exfalso
        rw [List.mem_singleton] at hnew
        have : r.patternType = f.patternType := by rw [hnew]
        exact hne this.symm
    · exact fun hmem => Or.inl hmem

/-- Membership of untouched-type rows survives the whole fold. -/
theorem mem_corePersist_untouched (fs : List FraudFinding)
    (m : List PatternCore) (cid : Nat) (r : PatternCore)
    (hnone : lastEvidence fs r.patternType = none) :
    r ∈ corePersist m cid fs ↔ r ∈ m := by
  induction fs generalizing m with
  | nil => exact Iff.rfl
  | cons f rest ih =>
    have hall := (lastEvidence_eq_none_iff (f :: rest) r.patternType).mp hnone
    have hrest : lastEvidence rest r.patternType = none :=
      (lastEvidence_eq_none_iff rest r.patternType).mpr
        fun g hg => hall g (List.mem_cons_of_mem _ hg)
    show r ∈ corePersist (coreUpsert m cid f) cid rest ↔ r ∈ m
    rw [ih _ hrest]
    exact mem_coreUpsert_of_ne_ty m cid f r (hall f (List.mem_cons_self f rest))

/-- Every row carrying the upserted key holds the upserted evidence. -/
theorem coreUpsert_evidence (m : List PatternCore) (cid : Nat)
    (f : FraudFinding) (r : PatternCore) (hr : r ∈ coreUpsert m cid f)
    (hcid : r.customerId = cid) (hty : r.patternType = f.patternType) :
    r.evidence = f.evidence := by
  unfold coreUpsert at hr
  split_ifs at hr with hpres
  · rcases List.mem_map.mp hr with ⟨r2, hr2, heq⟩
    by_cases hc : r2.customerId = cid ∧ r2.patternType = f.patternType
    · rw [if_pos hc] at heq
      rw [← heq]
    · rw [if_neg hc] at heq
      exact absurd ⟨heq ▸ hcid, heq ▸ hty⟩ hc
  · rw [List.mem_append] at hr
    rcases hr with hmem | hnew
    · exact absurd ⟨r, hmem, hcid, hty⟩ hpres
    · rw [List.mem_singleton] at hnew
      rw [hnew]

/-- After the fold, every row of one customer whose type the findings wrote
holds the last written evidence. -/
theorem corePersist_settled (fs : List FraudFinding) (m : List PatternCore)
    (cid : Nat) (r : PatternCore) (e : Evidence)
    (hr : r ∈ corePersist m cid fs) (hcid : r.customerId = cid)
    (he : lastEvidence fs r.patternType = some e) : r.evidence = e := by
  induction fs generalizing m with
  | nil => exact Option.noConfusion he
  | cons f rest ih =>
    have hr' : r ∈ corePersist (coreUpsert m cid f) cid rest := hr
    rcases hle : lastEvidence rest r.patternType with _ | e2
    · have hfe : f.patternType = r.patternType ∧ f.evidence = e := by
        rw [lastEvidence_cons_of_none f rest r.patternType hle] at he
        by_cases hft : f.patternType = r.patternType
        · rw [if_pos hft] at he
          exact ⟨hft, Option.some.inj he⟩
        · rw [if_neg hft] at he
          exact Option.noConfusion he
      have hmem : r ∈ coreUpsert m cid f :=
        (mem_corePersist_untouched rest _ cid r hle).mp hr'
      rw [coreUpsert_evidence m cid f r hmem hcid hfe.1.symm, hfe.2]
    · have he2 : e2 = e := by
        rw [lastEvidence_cons_of_some f rest r.patternType e2 hle] at he
        exact Option.some.inj he
      exact ih _ hr' (he2 ▸ hle)

/-- A write batch whose values the rows already hold changes nothing. -/
theorem applyWrites_eq_self (cid : Nat) (g : PatternType → Option Evidence)
    (m : List PatternCore)
    (h : ∀ r ∈ m, r.customerId = cid → ∀ e, g r.patternType = some e →
      r.evidence = e) :
    applyWrites cid g m = m := by
  unfold applyWrites
  induction m with
  | nil => rfl
  | cons r t ih =>
    rw [List.map_cons]
    have ht : t.map _ = t := ih fun r2 hr2 => h r2 (List.mem_cons_of_mem _ hr2)
    rw [ht]
    by_cases hc : r.customerId = cid
    · rcases hg : g r.patternType with _ | e
      · rw [if_pos hc]
      · rw [if_pos hc]
        have hre : r.evidence = e := h r (List.mem_cons_self r t) hc e hg
        obtain ⟨rc, rt, re⟩ := r
        simp only at hre
        rw [hre]
    · rw [if_neg hc]

/-- Re-running one batch of upserts on its own output is the identity. -/
theorem corePersist_idem (m : List PatternCore) (cid : Nat)
    (fs : List FraudFinding) :
    corePersist (corePersist m cid fs) cid fs = corePersist m cid fs := by
  have hpres : ∀ f ∈ fs, hasCoreRow (corePersist m cid fs) cid f.patternType :=
    fun f hf => hasCoreRow_corePersist_of_mem fs m cid f hf
  rw [corePersist_eq_applyWrites fs _ cid hpres]
  exact applyWrites_eq_self cid (lastEvidence fs) (corePersist m cid fs)
    fun r hr hcid e hg => corePersist_settled fs m cid r e hr hcid hg

/-- Stripping `detectedAt` commutes with one upsert. -/
theorem map_strip_upsert (s : List PatternRow) (cid : Nat) (f : FraudFinding)
    (now : Nat) :
    (upsertPattern s cid f now).map stripDetectedAt =
      coreUpsert (s.map stripDetectedAt) cid f := by
  have hiff : hasPatternRow s cid f.patternType ↔
      hasCoreRow (s.map stripDetectedAt) cid f.patternType := by
    constructor
    · rintro ⟨r, hr, h1, h2⟩
      exact ⟨stripDetectedAt r, List.mem_map_of_mem _ hr, h1, h2⟩
    · rintro ⟨rc, hrc, h1, h2⟩
      rcases List.mem_map.mp hrc with ⟨r, hr, rfl⟩
      exact ⟨r, hr, h1, h2⟩
  unfold upsertPattern coreUpsert
  by_cases h1 : hasPatternRow s cid f.patternType
  · rw [if_pos h1, if_pos (hiff.mp h1), List.map_map, List.map_map]
    apply List.map_congr_left
    intro r _
    by_cases hc : r.customerId = cid ∧ r.patternType = f.patternType
    · simp only [Function.comp_apply, if_pos hc, stripDetectedAt]
    · simp only [Function.comp_apply, if_neg hc, stripDetectedAt]
  · rw [if_neg h1, if_neg (fun hc => h1 (hiff.mpr hc)), List.map_append]
    rfl

/-- Stripping `detectedAt` commutes with the whole persistence fold. -/
theorem map_strip_persist (s : List PatternRow) (cid : Nat)
    (fs : List FraudFinding) (now : Nat) :
    (persistPatterns s cid fs now).map stripDetectedAt =
      corePersist (s.map stripDetectedAt) cid fs := by
  induction fs generalizing s with
  | nil => rfl
  | cons f rest ih =>
    show (persistPatterns (upsertPattern s cid f now) cid rest now).map stripDetectedAt =
      corePersist (coreUpsert (s.map stripDetectedAt) cid f) cid rest
    rw [ih (upsertPattern s cid f now), map_strip_upsert]

/-- C5: `detectPatterns` twice over an unchanged timeline persists to the
same rows: after the first run is stored, re-persisting the second
(identical, by purity) findings batch adds no row and changes no stored
customer, pattern type or evidence — at most `detectedAt` moves. -/
theorem detectPatterns_idempotent_persist (store : List PatternRow)
    (cid : Nat) (cfg : DetectorConfig) (asOf : Nat) (tl : List HistoryEvent)
    (n1 n2 : Nat) :
    (persistPatterns (persistPatterns store cid (detectPatterns cfg asOf tl) n1)
        cid (detectPatterns cfg asOf tl) n2).length =
      (persistPatterns store cid (detectPatterns cfg asOf tl) n1).length ∧
    (persistPatterns (persistPatterns store cid (detectPatterns cfg asOf tl) n1)
        cid (detectPatterns cfg asOf tl) n2).map stripDetectedAt =
      (persistPatterns store cid (detectPatterns cfg asOf tl) n1).map
        stripDetectedAt := by
  have hstrip :
      (persistPatterns (persistPatterns store cid (detectPatterns cfg asOf tl) n1)
          cid (detectPatterns cfg asOf tl) n2).map stripDetectedAt =
        (persistPatterns store cid (detectPatterns cfg asOf tl) n1).map
          stripDetectedAt := by
    rw [map_strip_persist, map_strip_persist, corePersist_idem]
  refine ⟨?_, hstrip⟩
  have hlen := congrArg List.length hstrip
  simpa using hlen

end Theorems

end InstallmentGuard
